import Mathlib

/-!
Shallow embedding of the vehicle-parking front-end core (App component,
ActiveVehicles component, ActiveVehiclesDetails component, VehicleCheckin
component).  Times are modelled as rational numbers of milliseconds since
the epoch (JS `Date.getTime()`), durations as rationals of hours, and the
charge as an integer amount of currency units.
-/

/-- Status of a parking record: the TS union type `'active' | 'completed'`. -/
inductive Status where
  | active
  | completed
deriving DecidableEq, Repr

/-- One parking record, mirroring the `Vehicle` interface of the App
component: optional fields `checkOutTime`, `duration` (hours) and `charge`
are absent while parked. -/
structure Vehicle where
  id : String
  vehicleNumber : String
  vehicleType : String
  ownerName : String
  phoneNumber : String
  checkInTime : ℚ
  checkOutTime : Option ℚ := none
  duration : Option ℚ := none
  charge : Option ℤ := none
  status : Status
deriving DecidableEq, Repr

/-- Data supplied by the check-in form: `Omit<Vehicle, 'id' | 'checkInTime' | 'status'>`
as instantiated at the call site (the form's four fields). -/
structure CheckinInput where
  vehicleNumber : String
  vehicleType : String
  ownerName : String
  phoneNumber : String
deriving DecidableEq, Repr

/-- The charge calculator of the App component: flat 10 for at most 12
hours, otherwise `Math.ceil(hours / 24) * 20`. -/
def calculateCharge (hours : ℚ) : ℤ :=
  if hours ≤ 12 then 10
  else ⌈hours / 24⌉ * 20

/-- The record built by a successful check-in: spread of the form data plus
a fresh id, the current time as `checkInTime`, and status `active`. -/
def newVehicle (inp : CheckinInput) (newId : String) (now : ℚ) : Vehicle :=
  { id := newId
    vehicleNumber := inp.vehicleNumber
    vehicleType := inp.vehicleType
    ownerName := inp.ownerName
    phoneNumber := inp.phoneNumber
    checkInTime := now
    status := Status.active }

/-- The `handleCheckin` handler of the App component.  It returns `false`
and leaves the collection unchanged when a record with the same
`vehicleNumber` is still active, and otherwise appends a fresh active
record and returns `true`.  The fresh id (`Date.now().toString()`) and the
clock reading (`new Date()`) are passed as parameters. -/
def handleCheckin (inp : CheckinInput) (newId : String) (now : ℚ)
    (vehicles : List Vehicle) : Bool × List Vehicle :=
  match vehicles.find? (fun v =>
      v.vehicleNumber == inp.vehicleNumber && v.status == Status.active) with
  | some _ => (false, vehicles)
  | none => (true, vehicles ++ [newVehicle inp newId now])

/-- The per-record branch of the App component's `handleCheckout` map:
a record with the requested id and status `active` gets `checkOutTime`,
`duration` (in hours) and `charge` set and moves to `completed`; every
other record is returned as is. -/
def checkoutUpdate (vehicleId : String) (now : ℚ) (v : Vehicle) : Vehicle :=
  if v.id == vehicleId && v.status == Status.active then
    let duration := (now - v.checkInTime) / (1000 * 60 * 60)
    { v with
      checkOutTime := some now
      duration := some duration
      charge := some (calculateCharge duration)
      status := Status.completed }
  else v

/-- The `handleCheckout` handler of the App component: a map of
`checkoutUpdate` over the whole collection. -/
def handleCheckout (vehicleId : String) (now : ℚ)
    (vehicles : List Vehicle) : List Vehicle :=
  vehicles.map (checkoutUpdate vehicleId now)

/-- Collections reachable from the empty initial state `useState([])` by
any sequence of check-in and check-out operations. -/
inductive Reachable : List Vehicle → Prop
  | nil : Reachable []
  | checkin (inp : CheckinInput) (newId : String) (now : ℚ) (s : List Vehicle) :
      Reachable s → Reachable (handleCheckin inp newId now s).2
  | checkout (vehicleId : String) (now : ℚ) (s : List Vehicle) :
      Reachable s → Reachable (handleCheckout vehicleId now s)

namespace ActiveVehiclesDetails

/-- Local charge calculator of the `ActiveVehiclesDetails` component in
Dashboard.tsx: textually the same tiering as the App component's one. -/
def calculateCharge (hours : ℚ) : ℤ :=
  if hours ≤ 12 then 10
  else ⌈hours / 24⌉ * 20

/-- Live-charge view of the `ActiveVehiclesDetails` component: elapsed
milliseconds converted to hours, fed to its local calculator. -/
def getCurrentCharge (currentTime checkIn : ℚ) : ℤ :=
  calculateCharge ((currentTime - checkIn) / (1000 * 60 * 60))

end ActiveVehiclesDetails

namespace ActiveVehicles

/-- Live-charge view of the `ActiveVehicles` component: it applies the
`calculateCharge` prop, which the App component instantiates with its own
`calculateCharge`. -/
def getCurrentCharge (now checkInTime : ℚ) : ℤ :=
  calculateCharge ((now - checkInTime) / (1000 * 60 * 60))

end ActiveVehicles

/-- Whitespace class of the JS regex `\s` (by code point). -/
def isJsWhitespace (c : Char) : Bool :=
  ([9, 10, 11, 12, 13, 32, 160, 5760, 8232, 8233, 8239, 8287, 12288,
    65279] : List Nat).contains c.toNat
  || (decide (8192 ≤ c.toNat) && decide (c.toNat ≤ 8202))

/-- Character class `[A-Z]`. -/
def isUpperAZ (c : Char) : Bool :=
  decide ('A' ≤ c) && decide (c ≤ 'Z')

/-- Character class `\d`, that is `[0-9]`. -/
def isDigit09 (c : Char) : Bool :=
  decide ('0' ≤ c) && decide (c ≤ '9')

/-- One candidate decomposition for the anchored regex
`^[A-Z]{2}\d{1,2}[A-Z]{1,2}\d{3,4}$`: block lengths `2, bl, cl, dl` with
matching character classes, covering the whole input. -/
def plateSplit (bl cl dl : Nat) (cs : List Char) : Bool :=
  decide (cs.length = 2 + bl + cl + dl)
  && (cs.take 2).all isUpperAZ
  && ((cs.drop 2).take bl).all isDigit09
  && ((cs.drop (2 + bl)).take cl).all isUpperAZ
  && ((cs.drop (2 + bl + cl)).take dl).all isDigit09

/-- Full-match semantics of `^[A-Z]{2}\d{1,2}[A-Z]{1,2}\d{3,4}$`: some
choice of the three bounded repetition counts covers the input. -/
def plateRegexMatch (cs : List Char) : Bool :=
  [1, 2].any fun bl => [1, 2].any fun cl => [3, 4].any fun dl =>
    plateSplit bl cl dl cs

/-- The `validateVehicleNumber` helper of the VehicleCheckin component:
`number.replace(/\s/g, '')` followed by the anchored regex test.  Note it
performs no case folding itself. -/
def validateVehicleNumber (s : String) : Bool :=
  plateRegexMatch (s.data.filter (fun c => !isJsWhitespace c))

/-- JS `toUpperCase` restricted to the ASCII letters, which is all the
check-in form's inputs use. -/
def jsToUpper (c : Char) : Char :=
  if decide ('a' ≤ c) && decide (c ≤ 'z') then Char.ofNat (c.toNat - 32) else c

/-- Uppercasing done by `handleVehicleNumberChange` on the form value
before `validateVehicleNumber` is consulted. -/
def toUpperCaseJs (s : String) : String :=
  ⟨s.data.map jsToUpper⟩

/-- Declarative reading of the anchored plate pattern: the character list
splits into 2 letters, 1–2 digits, 1–2 letters and 3–4 digits. -/
def PlateSpec (cs : List Char) : Prop :=
  ∃ a b c d : List Char,
    cs = a ++ b ++ c ++ d ∧
    a.length = 2 ∧
    (1 ≤ b.length ∧ b.length ≤ 2) ∧
    (1 ≤ c.length ∧ c.length ≤ 2) ∧
    (3 ≤ d.length ∧ d.length ≤ 4) ∧
    a.all isUpperAZ ∧ b.all isDigit09 ∧ c.all isUpperAZ ∧ d.all isDigit09

/-- Predicate for an active record carrying a given plate number. -/
def activeWith (n : String) (v : Vehicle) : Bool :=
  v.vehicleNumber == n && v.status == Status.active

/-- Sample check-in form data used by concrete witnesses. -/
def sampleInput : CheckinInput :=
  { vehicleNumber := "MH12AB1234"
    vehicleType := "Car"
    ownerName := "Asha"
    phoneNumber := "9876543210" }

/-- Sample active record used by concrete witnesses. -/
def sampleActive : Vehicle :=
  { id := "1"
    vehicleNumber := "MH12AB1234"
    vehicleType := "Car"
    ownerName := "Asha"
    phoneNumber := "9876543210"
    checkInTime := 0
    status := Status.active }

/-- Second sample active record sharing the id of `sampleActive` but with
a different plate, for exercising duplicate-id collections. -/
def sampleActiveDup : Vehicle :=
  { id := "1"
    vehicleNumber := "KA05CD6789"
    vehicleType := "Bike"
    ownerName := "Ravi"
    phoneNumber := "9123456789"
    checkInTime := 0
    status := Status.active }

/-- Sample completed record used by concrete witnesses. -/
def sampleCompleted : Vehicle :=
  { id := "2"
    vehicleNumber := "KA05CD6789"
    vehicleType := "Bike"
    ownerName := "Ravi"
    phoneNumber := "9123456789"
    checkInTime := 0
    checkOutTime := some 3600000
    duration := some 1
    charge := some 10
    status := Status.completed }

/-! ### Helper lemmas about the charge calculator -/

theorem calculateCharge_of_le {hours : ℚ} (h : hours ≤ 12) :
    calculateCharge hours = 10 := by
  rw [calculateCharge, if_pos h]

theorem calculateCharge_of_gt {hours : ℚ} (h : 12 < hours) :
    calculateCharge hours = ⌈hours / 24⌉ * 20 := by
  rw [calculateCharge, if_neg (not_le.mpr h)]

/-! ### Helper lemmas about check-in and check-out -/

theorem checkoutUpdate_of_not_match {vehicleId : String} {now : ℚ} {v : Vehicle}
    (h : ¬(v.id = vehicleId ∧ v.status = Status.active)) :
    checkoutUpdate vehicleId now v = v := by
  rw [checkoutUpdate, if_neg]
  simp only [Bool.and_eq_true, beq_iff_eq]
  exact h

theorem checkoutUpdate_of_match {vehicleId : String} {now : ℚ} {v : Vehicle}
    (hid : v.id = vehicleId) (hst : v.status = Status.active) :
    checkoutUpdate vehicleId now v =
      { v with
        checkOutTime := some now
        duration := some ((now - v.checkInTime) / (1000 * 60 * 60))
        charge := some (calculateCharge ((now - v.checkInTime) / (1000 * 60 * 60)))
        status := Status.completed } := by
  rw [checkoutUpdate, if_pos]
  simp only [Bool.and_eq_true, beq_iff_eq]
  exact ⟨hid, hst⟩

theorem checkoutUpdate_id (vehicleId : String) (now : ℚ) (v : Vehicle) :
    (checkoutUpdate vehicleId now v).id = v.id := by
  rw [checkoutUpdate]
  split <;> rfl

theorem checkoutUpdate_vehicleNumber (vehicleId : String) (now : ℚ) (v : Vehicle) :
    (checkoutUpdate vehicleId now v).vehicleNumber = v.vehicleNumber := by
  rw [checkoutUpdate]
  split <;> rfl

/-- A record can only lose the `active` status under `checkoutUpdate`,
never gain it. -/
theorem checkoutUpdate_active {vehicleId : String} {now : ℚ} {v : Vehicle}
    (h : (checkoutUpdate vehicleId now v).status = Status.active) :
    checkoutUpdate vehicleId now v = v ∧ v.status = Status.active := by
  by_cases hc : v.id = vehicleId ∧ v.status = Status.active
  · rw [checkoutUpdate_of_match hc.1 hc.2] at h
    exact absurd h (by simp)
  · rw [checkoutUpdate_of_not_match hc] at h ⊢
    exact ⟨rfl, h⟩

theorem handleCheckin_of_found {inp : CheckinInput} {newId : String} {now : ℚ}
    {vehicles : List Vehicle} {w : Vehicle}
    (h : vehicles.find? (fun v =>
        v.vehicleNumber == inp.vehicleNumber && v.status == Status.active) = some w) :
    handleCheckin inp newId now vehicles = (false, vehicles) := by
  rw [handleCheckin, h]

theorem handleCheckin_of_not_found {inp : CheckinInput} {newId : String} {now : ℚ}
    {vehicles : List Vehicle}
    (h : vehicles.find? (fun v =>
        v.vehicleNumber == inp.vehicleNumber && v.status == Status.active) = none) :
    handleCheckin inp newId now vehicles =
      (true, vehicles ++ [newVehicle inp newId now]) := by
  rw [handleCheckin, h]

/-! ### Counting lemmas -/

/-- Mapping with a function that can only turn the predicate off never
increases a `countP`. -/
theorem countP_map_le_of_imp (p : Vehicle → Bool) (f : Vehicle → Vehicle)
    (hf : ∀ v, p (f v) = true → p v = true) :
    ∀ s : List Vehicle, (s.map f).countP p ≤ s.countP p := by
  intro s
  induction s with
  | nil => simp
  | cons a t ih =>
      rw [List.map_cons, List.countP_cons, List.countP_cons]
      by_cases ha : p (f a) = true
      · have := hf a ha
        simp only [ha, this, if_pos]
        omega
      · simp only [Bool.not_eq_true] at ha
        simp only [ha, Bool.false_eq_true, if_false]
        omega

/-- Two distinct members both satisfying `p` force a `countP` of at least
two. -/
theorem two_mem_le_countP (p : Vehicle → Bool) :
    ∀ (s : List Vehicle) (u v : Vehicle), u ∈ s → v ∈ s → u ≠ v →
      p u = true → p v = true → 2 ≤ s.countP p := by
  intro s
  induction s with
  | nil => intro u v hu; simp at hu
  | cons a t ih =>
      intro u v hu hv huv hpu hpv
      rcases List.mem_cons.mp hu with hu1 | hu2
      · rcases List.mem_cons.mp hv with hv1 | hv2
        · exact absurd (hu1.trans hv1.symm) huv
        · have h1 : 0 < t.countP p :=
            List.countP_pos_iff.mpr ⟨v, hv2, hpv⟩
          rw [List.countP_cons]
          simp only [hu1 ▸ hpu, if_pos]
          omega
      · rcases List.mem_cons.mp hv with hv1 | hv2
        · have h1 : 0 < t.countP p :=
            List.countP_pos_iff.mpr ⟨u, hu2, hpu⟩
          rw [List.countP_cons]
          simp only [hv1 ▸ hpv, if_pos]
          omega
        · have := ih u v hu2 hv2 huv hpu hpv
          rw [List.countP_cons]
          omega

/-- The active-with-`n` predicate survives `checkoutUpdate` only downward:
a record active after the map was active (and untouched) before it. -/
theorem activeWith_checkoutUpdate {n vehicleId : String} {now : ℚ} {v : Vehicle}
    (h : activeWith n (checkoutUpdate vehicleId now v) = true) :
    activeWith n v = true := by
  have hst : (checkoutUpdate vehicleId now v).status = Status.active := by
    rw [activeWith, Bool.and_eq_true, beq_iff_eq, beq_iff_eq] at h
    exact h.2
  obtain ⟨heq, _⟩ := checkoutUpdate_active hst
  rw [heq] at h
  exact h

/-- Invariant behind the uniqueness property: a reachable collection never
holds more than one active record per plate number. -/
theorem reachable_activeCount {s : List Vehicle} (h : Reachable s) (n : String) :
    s.countP (activeWith n) ≤ 1 := by
  induction h with
  | nil => simp
  | checkin inp newId now t _ ih =>
      cases hfind : t.find? (fun v =>
          v.vehicleNumber == inp.vehicleNumber && v.status == Status.active) with
      | some w =>
          rw [handleCheckin_of_found hfind]
          exact ih
      | none =>
          rw [handleCheckin_of_not_found hfind]
          show (t ++ [newVehicle inp newId now]).countP (activeWith n) ≤ 1
          rw [List.countP_append]
          by_cases hn : activeWith n (newVehicle inp newId now) = true
          · have hnum : inp.vehicleNumber = n := by
              rw [activeWith, Bool.and_eq_true, beq_iff_eq] at hn
              exact hn.1
            have h0 : t.countP (activeWith n) = 0 := by
              rw [List.countP_eq_zero]
              intro a ha hpa
              have hnone := List.find?_eq_none.mp hfind a ha
              rw [activeWith, Bool.and_eq_true, beq_iff_eq, beq_iff_eq] at hpa
              rw [Bool.and_eq_true, beq_iff_eq, beq_iff_eq] at hnone
              exact hnone ⟨hpa.1.trans hnum.symm, hpa.2⟩
            have h1 : List.countP (activeWith n) [newVehicle inp newId now] ≤ 1 := by
              rw [List.countP_cons, List.countP_nil]
              split <;> omega
            omega
          · have h1 : List.countP (activeWith n) [newVehicle inp newId now] = 0 := by
              simp only [List.countP_cons, List.countP_nil,
                Bool.not_eq_true] at *
              simp [hn]
            omega
  | checkout vehicleId now t _ ih =>
      exact le_trans
        (countP_map_le_of_imp (activeWith n) (checkoutUpdate vehicleId now)
          (fun v hv => activeWith_checkoutUpdate hv) t) ih

/-- Evaluation helper for the expensive tier: a concrete ceiling value
yields a concrete charge. -/
theorem calculateCharge_eval_gt {q : ℚ} {d : ℤ} (h : 12 < q) (hd : ⌈q / 24⌉ = d) :
    calculateCharge q = d * 20 := by
  rw [calculateCharge_of_gt h, hd]

/-- C1: the charge calculator returns 10 for non-negative durations up to
12 hours and `ceil(duration / 24) * 20` beyond, with the stated boundary
values `Calculate(12.0) = 10`, `Calculate(12.0001) = 20`,
`Calculate(24.0) = 20`, `Calculate(24.0001) = 40`, `Calculate(48.0) = 40`
and `Calculate(0) = 10`. -/
theorem calculateCharge_policy :
    (∀ h : ℚ, 0 ≤ h →
      (h ≤ 12 → calculateCharge h = 10) ∧
      (12 < h → calculateCharge h = ⌈h / 24⌉ * 20))
    ∧ calculateCharge 12 = 10
    ∧ calculateCharge (120001 / 10000) = 20
    ∧ calculateCharge 24 = 20
    ∧ calculateCharge (240001 / 10000) = 40
    ∧ calculateCharge 48 = 40
    ∧ calculateCharge 0 = 10 := by
  have c1 : (⌈(120001 / 10000 : ℚ) / 24⌉ : ℤ) = 1 := by
    rw [Int.ceil_eq_iff]
    constructor <;> norm_num
  have c2 : (⌈(24 : ℚ) / 24⌉ : ℤ) = 1 := by
    rw [Int.ceil_eq_iff]
    constructor <;> norm_num
  have c3 : (⌈(240001 / 10000 : ℚ) / 24⌉ : ℤ) = 2 := by
    rw [Int.ceil_eq_iff]
    constructor <;> norm_num
  have c4 : (⌈(48 : ℚ) / 24⌉ : ℤ) = 2 := by
    rw [Int.ceil_eq_iff]
    constructor <;> norm_num
  refine ⟨fun h _ => ⟨fun hle => calculateCharge_of_le hle,
      fun hgt => calculateCharge_of_gt hgt⟩,
    calculateCharge_of_le (by norm_num),
    (calculateCharge_eval_gt (by norm_num) c1).trans (by norm_num),
    (calculateCharge_eval_gt (by norm_num) c2).trans (by norm_num),
    (calculateCharge_eval_gt (by norm_num) c3).trans (by norm_num),
    (calculateCharge_eval_gt (by norm_num) c4).trans (by norm_num),
    calculateCharge_of_le (by norm_num)⟩

/-- Witness for C1 at the concrete duration 5. -/
theorem calculateCharge_policy_witness :
    (0 : ℚ) ≤ 5 ∧
    (((5 : ℚ) ≤ 12 → calculateCharge 5 = 10) ∧
     ((12 : ℚ) < 5 → calculateCharge 5 = ⌈(5 : ℚ) / 24⌉ * 20)) :=
  ⟨by decide, calculateCharge_policy.1 5 (by decide)⟩

/-- C6: the charge calculator is monotonically non-decreasing on
non-negative durations. -/
theorem calculateCharge_monotone (h1 h2 : ℚ) (hnn : 0 ≤ h1) (hle : h1 ≤ h2) :
    calculateCharge h1 ≤ calculateCharge h2 := by
  by_cases hc2 : h2 ≤ 12
  · rw [calculateCharge_of_le (le_trans hle hc2), calculateCharge_of_le hc2]
  · push_neg at hc2
    rw [calculateCharge_of_gt hc2]
    by_cases hc1 : h1 ≤ 12
    · rw [calculateCharge_of_le hc1]
      have hpos : 0 < h2 / 24 :=
        div_pos (lt_trans (by norm_num) hc2) (by norm_num)
      have hone : 1 ≤ ⌈h2 / 24⌉ := Int.ceil_pos.mpr hpos
      linarith
    · push_neg at hc1
      rw [calculateCharge_of_gt hc1]
      have hdiv : h1 / 24 ≤ h2 / 24 := by gcongr
      exact mul_le_mul_of_nonneg_right (Int.ceil_mono hdiv) (by norm_num)

/-- Witness for C6 at the concrete pair (1, 30). -/
theorem calculateCharge_monotone_witness :
    (0 : ℚ) ≤ 1 ∧ (1 : ℚ) ≤ 30 ∧ calculateCharge 1 ≤ calculateCharge 30 :=
  ⟨by decide, by decide, calculateCharge_monotone 1 30 (by decide) (by decide)⟩

/-- C9: the authoritative checkout-time charge function, the local
calculator of the `ActiveVehiclesDetails` component, and the function the
`ActiveVehicles` live-charge display applies (the `calculateCharge` prop
as wired by the App component) agree on every duration. -/
theorem charge_functions_agree :
    (∀ h : ℚ, calculateCharge h = ActiveVehiclesDetails.calculateCharge h)
    ∧ (∀ now checkIn : ℚ, ActiveVehicles.getCurrentCharge now checkIn =
        calculateCharge ((now - checkIn) / (1000 * 60 * 60)))
    ∧ (∀ now checkIn : ℚ, ActiveVehiclesDetails.getCurrentCharge now checkIn =
        calculateCharge ((now - checkIn) / (1000 * 60 * 60))) :=
  ⟨fun _ => rfl, fun _ _ => rfl, fun _ _ => rfl⟩

/-- C2: starting from the empty collection, no sequence of check-in and
check-out operations ever produces two records with the same
`vehicleNumber` that are both active: the count of active records per
plate number never exceeds one. -/
theorem active_vehicleNumber_unique (s : List Vehicle) (h : Reachable s)
    (n : String) : s.countP (activeWith n) ≤ 1 :=
  reachable_activeCount h n

/-- Witness for C2 on the concrete collection produced by one check-in. -/
theorem active_vehicleNumber_unique_witness :
    Reachable (handleCheckin sampleInput "1" 0 []).2 ∧
    ((handleCheckin sampleInput "1" 0 []).2).countP (activeWith "MH12AB1234") ≤ 1 :=
  ⟨Reachable.checkin sampleInput "1" 0 [] Reachable.nil,
   active_vehicleNumber_unique _ (Reachable.checkin sampleInput "1" 0 [] Reachable.nil)
    "MH12AB1234"⟩

/-- C5: on every reachable collection, `checkOutTime`, `duration` and
`charge` are each present exactly when the record is completed, so the
three optional fields are populated all together or not at all. -/
theorem completed_fields_atomic (s : List Vehicle) (h : Reachable s) :
    ∀ v ∈ s,
      (v.checkOutTime.isSome ↔ v.status = Status.completed) ∧
      (v.duration.isSome ↔ v.status = Status.completed) ∧
      (v.charge.isSome ↔ v.status = Status.completed) := by
  induction h with
  | nil => intro v hv; simp at hv
  | checkin inp newId now t _ ih =>
      intro v hv
      cases hfind : t.find? (fun w =>
          w.vehicleNumber == inp.vehicleNumber && w.status == Status.active) with
      | some w =>
          rw [handleCheckin_of_found hfind] at hv
          exact ih v hv
      | none =>
          rw [handleCheckin_of_not_found hfind] at hv
          rcases List.mem_append.mp hv with hv1 | hv2
          · exact ih v hv1
          · have hvn : v = newVehicle inp newId now := by simpa using hv2
            subst hvn
            refine ⟨?_, ?_, ?_⟩ <;> simp [newVehicle]
  | checkout vehicleId now t _ ih =>
      intro v hv
      rw [handleCheckout] at hv
      rcases List.mem_map.mp hv with ⟨u, hu, huv⟩
      by_cases hcond : u.id = vehicleId ∧ u.status = Status.active
      · rw [← huv, checkoutUpdate_of_match hcond.1 hcond.2]
        refine ⟨?_, ?_, ?_⟩ <;> simp
      · rw [← huv, checkoutUpdate_of_not_match hcond]
        exact ih u hu

/-- Witness for C5 on the concrete collection produced by one check-in. -/
theorem completed_fields_atomic_witness :
    Reachable (handleCheckin sampleInput "3" 0 []).2 ∧
    newVehicle sampleInput "3" 0 ∈ (handleCheckin sampleInput "3" 0 []).2 ∧
    (((newVehicle sampleInput "3" 0).checkOutTime.isSome ↔
        (newVehicle sampleInput "3" 0).status = Status.completed) ∧
     ((newVehicle sampleInput "3" 0).duration.isSome ↔
        (newVehicle sampleInput "3" 0).status = Status.completed) ∧
     ((newVehicle sampleInput "3" 0).charge.isSome ↔
        (newVehicle sampleInput "3" 0).status = Status.completed)) :=
  ⟨Reachable.checkin sampleInput "3" 0 [] Reachable.nil, by decide,
   completed_fields_atomic _ (Reachable.checkin sampleInput "3" 0 [] Reachable.nil)
    (newVehicle sampleInput "3" 0) (by decide)⟩

/-! ### Frame lemmas for check-out -/

theorem handleCheckout_getElem? (vehicleId : String) (now : ℚ)
    (s : List Vehicle) (i : ℕ) :
    (handleCheckout vehicleId now s)[i]? =
      (s[i]?).map (checkoutUpdate vehicleId now) := by
  rw [handleCheckout, List.getElem?_map]

theorem handleCheckout_eq_self {vehicleId : String} {now : ℚ}
    {s : List Vehicle}
    (h : ∀ v ∈ s, ¬(v.id = vehicleId ∧ v.status = Status.active)) :
    handleCheckout vehicleId now s = s := by
  rw [handleCheckout,
    List.map_congr_left (fun v hv => checkoutUpdate_of_not_match (h v hv)),
    List.map_id']

/-- With pairwise distinct record ids, at most one record can satisfy the
check-out guard. -/
theorem nodup_ids_countP (vehicleId : String) :
    ∀ s : List Vehicle, (s.map Vehicle.id).Nodup →
      s.countP (fun v => v.id == vehicleId && v.status == Status.active) ≤ 1 := by
  intro s
  induction s with
  | nil => intro _; simp
  | cons a t ih =>
      intro h
      rw [List.map_cons, List.nodup_cons] at h
      rw [List.countP_cons]
      by_cases ha : (a.id == vehicleId && a.status == Status.active) = true
      · have haid : a.id = vehicleId := by
          rw [Bool.and_eq_true, beq_iff_eq] at ha
          exact ha.1
        have h0 : t.countP (fun v => v.id == vehicleId && v.status == Status.active) = 0 := by
          rw [List.countP_eq_zero]
          intro b hb hpb
          rw [Bool.and_eq_true, beq_iff_eq] at hpb
          exact h.1 (by rw [haid, ← hpb.1]; exact List.mem_map_of_mem Vehicle.id hb)
        rw [h0, if_pos ha]
      · have h1 := ih h.2
        rw [if_neg ha]
        omega

/-- C4: applying check-out at time `T` to a collection entry that has the
requested id and is active replaces exactly that entry by the same record
with `checkOutTime = T`, `duration = (T - checkInTime)` converted from
milliseconds to hours, `charge` computed by the charge calculator on that
duration, and status completed; the updated record is what the operation
produces at that position. -/
theorem checkout_updates_active_record (vehicleId : String) (now : ℚ)
    (s : List Vehicle) (i : ℕ) (v : Vehicle)
    (hv : s[i]? = some v) (hid : v.id = vehicleId)
    (hst : v.status = Status.active) :
    (handleCheckout vehicleId now s)[i]? = some
      { v with
        checkOutTime := some now
        duration := some ((now - v.checkInTime) / (1000 * 60 * 60))
        charge := some (calculateCharge ((now - v.checkInTime) / (1000 * 60 * 60)))
        status := Status.completed } := by
  rw [handleCheckout_getElem?, hv, Option.map_some',
    checkoutUpdate_of_match hid hst]

/-- Witness for C4 on a concrete one-element collection. -/
theorem checkout_updates_active_record_witness :
    (([sampleActive] : List Vehicle)[0]? = some sampleActive) ∧
    sampleActive.id = "1" ∧ sampleActive.status = Status.active ∧
    (handleCheckout "1" 18000000 [sampleActive])[0]? = some
      { sampleActive with
        checkOutTime := some 18000000
        duration := some ((18000000 - sampleActive.checkInTime) / (1000 * 60 * 60))
        charge := some (calculateCharge
          ((18000000 - sampleActive.checkInTime) / (1000 * 60 * 60)))
        status := Status.completed } :=
  ⟨rfl, rfl, rfl,
   checkout_updates_active_record "1" 18000000 [sampleActive] 0 sampleActive rfl rfl rfl⟩

/-- Counterexample for C3 as stated: on a collection holding one completed
record, a check-out aimed at that record's id produces no error outcome of
any kind — the handler's only observable result is the collection itself,
returned unchanged. -/
theorem checkout_completed_unreported_cex :
    handleCheckout "2" 7200000 [sampleCompleted] = [sampleCompleted] := by
  decide

/-- C3 (amended): a check-out aimed at a completed record leaves that
record unchanged and reports nothing, neither check-out nor check-in ever
moves a completed record back to active, and a check-out whose id matches
no record returns the collection unchanged with no error reported. -/
theorem checkout_completed_noop (vehicleId : String) (now : ℚ)
    (s : List Vehicle) :
    (∀ v ∈ s, v.status = Status.completed → checkoutUpdate vehicleId now v = v)
    ∧ (∀ (i : ℕ) (v : Vehicle), s[i]? = some v → v.status = Status.completed →
        (handleCheckout vehicleId now s)[i]? = some v)
    ∧ (∀ (inp : CheckinInput) (newId : String) (i : ℕ) (v : Vehicle),
        s[i]? = some v → v.status = Status.completed →
        ((handleCheckin inp newId now s).2)[i]? = some v)
    ∧ ((∀ v ∈ s, v.id ≠ vehicleId) → handleCheckout vehicleId now s = s) := by
  have hupd : ∀ v : Vehicle, v.status = Status.completed →
      checkoutUpdate vehicleId now v = v := by
    intro v hc
    refine checkoutUpdate_of_not_match ?_
    rintro ⟨-, ha⟩
    rw [hc] at ha
    cases ha
  refine ⟨fun v _ hc => hupd v hc, ?_, ?_, ?_⟩
  · intro i v hv hc
    rw [handleCheckout_getElem?, hv, Option.map_some', hupd v hc]
  · intro inp newId i v hv hc
    cases hfind : s.find? (fun w =>
        w.vehicleNumber == inp.vehicleNumber && w.status == Status.active) with
    | some w =>
        rw [handleCheckin_of_found hfind]
        exact hv
    | none =>
        rw [handleCheckin_of_not_found hfind]
        show (s ++ [newVehicle inp newId now])[i]? = some v
        rw [List.getElem?_append_left (List.getElem?_eq_some.mp hv).1]
        exact hv
  · intro h
    exact handleCheckout_eq_self (fun v hv => fun hc => h v hv hc.1)

/-- Witness for C3 (amended) on a concrete completed record. -/
theorem checkout_completed_noop_witness :
    (([sampleCompleted] : List Vehicle)[0]? = some sampleCompleted) ∧
    sampleCompleted.status = Status.completed ∧
    (handleCheckout "9" 0 [sampleCompleted])[0]? = some sampleCompleted :=
  ⟨rfl, rfl,
   (checkout_completed_noop "9" 0 [sampleCompleted]).2.1 0 sampleCompleted rfl rfl⟩

/-- Counterexample for C10 as stated: on a collection holding two active
records that share the id "1", one check-out call modifies two records,
not at most one. -/
theorem checkout_duplicate_ids_cex :
    ([sampleActive, sampleActiveDup].countP
        (fun v => v.status == Status.completed) = 0) ∧
    ((handleCheckout "1" 0 [sampleActive, sampleActiveDup]).countP
        (fun v => v.status == Status.completed) = 2) := by
  constructor <;> decide

/-- C10 (amended): check-out leaves every entry that does not carry both
the requested id and active status unchanged at its position; when no
record at all matches, the collection comes back unchanged; and whenever
the record ids are pairwise distinct, at most one entry satisfies the
update guard. -/
theorem checkout_frame (vehicleId : String) (now : ℚ) (s : List Vehicle) :
    (∀ (i : ℕ) (v : Vehicle), s[i]? = some v →
        ¬(v.id = vehicleId ∧ v.status = Status.active) →
        (handleCheckout vehicleId now s)[i]? = some v)
    ∧ ((∀ v ∈ s, ¬(v.id = vehicleId ∧ v.status = Status.active)) →
        handleCheckout vehicleId now s = s)
    ∧ ((s.map Vehicle.id).Nodup →
        s.countP (fun v => v.id == vehicleId && v.status == Status.active) ≤ 1) := by
  refine ⟨?_, handleCheckout_eq_self, nodup_ids_countP vehicleId s⟩
  intro i v hv hcond
  rw [handleCheckout_getElem?, hv, Option.map_some',
    checkoutUpdate_of_not_match hcond]

/-- Witness for C10 (amended) on a concrete distinct-id collection. -/
theorem checkout_frame_witness :
    (([sampleActive, sampleCompleted] : List Vehicle).map Vehicle.id).Nodup ∧
    ([sampleActive, sampleCompleted] : List Vehicle).countP
      (fun v => v.id == "7" && v.status == Status.active) ≤ 1 :=
  ⟨by decide, (checkout_frame "7" 5 [sampleActive, sampleCompleted]).2.2 (by decide)⟩

/-- C8: check-in returns `false` exactly when some record with the same
`vehicleNumber` is still active, and after the active record for a plate
is checked out, a new check-in with the same plate succeeds, appending a
fresh active record whose id is the newly supplied one and differs from
every id already in the collection when the supplied id is fresh. -/
theorem checkin_fails_iff_active_and_reuse (inp : CheckinInput)
    (newId : String) (now : ℚ) (s : List Vehicle) :
    ((handleCheckin inp newId now s).1 = false ↔
      ∃ v ∈ s, v.vehicleNumber = inp.vehicleNumber ∧ v.status = Status.active)
    ∧ (Reachable s → ∀ v ∈ s, v.vehicleNumber = inp.vehicleNumber →
        v.status = Status.active → ∀ (now0 now1 : ℚ) (newId1 : String),
        handleCheckin inp newId1 now1 (handleCheckout v.id now0 s) =
          (true, handleCheckout v.id now0 s ++ [newVehicle inp newId1 now1])
        ∧ (newVehicle inp newId1 now1).id = newId1
        ∧ (newVehicle inp newId1 now1).status = Status.active
        ∧ ((∀ w ∈ s, w.id ≠ newId1) →
            ∀ w ∈ handleCheckout v.id now0 s, w.id ≠ newId1)) := by
  constructor
  · cases hfind : s.find? (fun w =>
        w.vehicleNumber == inp.vehicleNumber && w.status == Status.active) with
    | some w =>
        rw [handleCheckin_of_found hfind]
        have hw := List.find?_some hfind
        rw [Bool.and_eq_true, beq_iff_eq, beq_iff_eq] at hw
        exact ⟨fun _ => ⟨w, List.mem_of_find?_eq_some hfind, hw⟩, fun _ => rfl⟩
    | none =>
        rw [handleCheckin_of_not_found hfind]
        constructor
        · intro h
          cases h
        · rintro ⟨v, hv, h1, h2⟩
          have := List.find?_eq_none.mp hfind v hv
          rw [Bool.and_eq_true, beq_iff_eq, beq_iff_eq] at this
          exact absurd ⟨h1, h2⟩ this
  · intro hreach v hv hnum hact now0 now1 newId1
    have hnone : (handleCheckout v.id now0 s).find? (fun w =>
        w.vehicleNumber == inp.vehicleNumber && w.status == Status.active) = none := by
      rw [List.find?_eq_none]
      intro w hw hpw
      rw [handleCheckout] at hw
      rcases List.mem_map.mp hw with ⟨u, hu, huw⟩
      rw [← huw] at hpw
      have hwActive : activeWith inp.vehicleNumber (checkoutUpdate v.id now0 u) = true := hpw
      have hpu := activeWith_checkoutUpdate hwActive
      have hstw : (checkoutUpdate v.id now0 u).status = Status.active := by
        rw [activeWith, Bool.and_eq_true, beq_iff_eq, beq_iff_eq] at hwActive
        exact hwActive.2
      obtain ⟨hueq, hua⟩ := checkoutUpdate_active hstw
      have huid : u.id ≠ v.id := by
        intro hid
        have hmatch := @checkoutUpdate_of_match v.id now0 u hid hua
        rw [hueq] at hmatch
        have hstatus := congrArg Vehicle.status hmatch
        rw [hua] at hstatus
        cases hstatus
      have hpv : activeWith inp.vehicleNumber v = true := by
        rw [activeWith, Bool.and_eq_true, beq_iff_eq, beq_iff_eq]
        exact ⟨hnum, hact⟩
      have hune : u ≠ v := fun h => huid (congrArg Vehicle.id h)
      have h2 := two_mem_le_countP (activeWith inp.vehicleNumber) s u v hu hv hune hpu hpv
      have h1 := reachable_activeCount hreach inp.vehicleNumber
      omega
    refine ⟨handleCheckin_of_not_found hnone, rfl, rfl, ?_⟩
    intro hfresh w hw
    rw [handleCheckout] at hw
    rcases List.mem_map.mp hw with ⟨u, hu, huw⟩
    rw [← huw, checkoutUpdate_id]
    exact hfresh u hu

/-- Witness for C8: check in a vehicle, check it out, check the same plate
in again with a fresh id. -/
theorem checkin_reuse_witness :
    Reachable (handleCheckin sampleInput "1" 0 []).2 ∧
    newVehicle sampleInput "1" 0 ∈ (handleCheckin sampleInput "1" 0 []).2 ∧
    (newVehicle sampleInput "1" 0).vehicleNumber = sampleInput.vehicleNumber ∧
    (newVehicle sampleInput "1" 0).status = Status.active ∧
    handleCheckin sampleInput "9" 100
        (handleCheckout (newVehicle sampleInput "1" 0).id 50
          (handleCheckin sampleInput "1" 0 []).2) =
      (true, handleCheckout (newVehicle sampleInput "1" 0).id 50
          (handleCheckin sampleInput "1" 0 []).2 ++ [newVehicle sampleInput "9" 100]) :=
  ⟨Reachable.checkin sampleInput "1" 0 [] Reachable.nil, by decide, rfl, rfl,
   ((checkin_fails_iff_active_and_reuse sampleInput "1" 0
        (handleCheckin sampleInput "1" 0 []).2).2
      (Reachable.checkin sampleInput "1" 0 [] Reachable.nil)
      (newVehicle sampleInput "1" 0) (by decide) rfl rfl 50 100 "9").1⟩

/-! ### Characterization of the plate regex -/

theorem plateSplit_spec {bl cl dl : ℕ} {cs : List Char}
    (h : plateSplit bl cl dl cs = true)
    (hb : 1 ≤ bl ∧ bl ≤ 2) (hc : 1 ≤ cl ∧ cl ≤ 2) (hd : 3 ≤ dl ∧ dl ≤ 4) :
    PlateSpec cs := by
  rw [plateSplit] at h
  simp only [Bool.and_eq_true, decide_eq_true_eq] at h
  obtain ⟨⟨⟨⟨hlen, haAll⟩, hbAll⟩, hcAll⟩, hdAll⟩ := h
  have e3 : (cs.drop 2).drop bl = cs.drop (2 + bl) := List.drop_drop bl 2 cs
  have e4 : (cs.drop (2 + bl)).drop cl = cs.drop (2 + bl + cl) :=
    List.drop_drop cl (2 + bl) cs
  have e5 : (cs.drop (2 + bl + cl)).take dl = cs.drop (2 + bl + cl) := by
    apply List.take_of_length_le
    rw [List.length_drop]
    omega
  refine ⟨cs.take 2, (cs.drop 2).take bl, (cs.drop (2 + bl)).take cl,
    (cs.drop (2 + bl + cl)).take dl, ?_, ?_, ?_, ?_, ?_,
    haAll, hbAll, hcAll, hdAll⟩
  · have hback : cs.take 2 ++ ((cs.drop 2).take bl ++
        ((cs.drop (2 + bl)).take cl ++ cs.drop (2 + bl + cl))) = cs := by
      rw [← e4, List.take_append_drop, ← e3, List.take_append_drop,
        List.take_append_drop]
    rw [e5]
    simp only [List.append_assoc]
    exact hback.symm
  · rw [List.length_take]
    omega
  · constructor <;> · rw [List.length_take, List.length_drop]; omega
  · constructor <;> · rw [List.length_take, List.length_drop]; omega
  · constructor <;> · rw [List.length_take, List.length_drop]; omega

theorem plateSpec_match {cs : List Char} (h : PlateSpec cs) :
    plateRegexMatch cs = true := by
  obtain ⟨a, b, c, d, he, ha2, hb, hc, hd, haAll, hbAll, hcAll, hdAll⟩ := h
  rw [List.append_assoc, List.append_assoc] at he
  subst he
  have hsplit : plateSplit b.length c.length d.length
      (a ++ (b ++ (c ++ d))) = true := by
    rw [plateSplit]
    simp only [Bool.and_eq_true, decide_eq_true_eq]
    have d2 : (a ++ (b ++ (c ++ d))).drop 2 = b ++ (c ++ d) :=
      List.drop_left' ha2
    have d3 : (a ++ (b ++ (c ++ d))).drop (2 + b.length) = c ++ d := by
      rw [← List.drop_drop, d2]
      exact List.drop_left' rfl
    have d4 : (a ++ (b ++ (c ++ d))).drop (2 + b.length + c.length) = d := by
      rw [← List.drop_drop, d3]
      exact List.drop_left' rfl
    refine ⟨⟨⟨⟨?_, ?_⟩, ?_⟩, ?_⟩, ?_⟩
    · simp only [List.length_append, ha2]
      omega
    · rw [List.take_left' ha2]
      exact haAll
    · rw [d2, List.take_left' rfl]
      exact hbAll
    · rw [d3, List.take_left' rfl]
      exact hcAll
    · rw [d4, List.take_length]
      exact hdAll
  have hb1 : b.length = 1 ∨ b.length = 2 := by omega
  have hc1 : c.length = 1 ∨ c.length = 2 := by omega
  have hd1 : d.length = 3 ∨ d.length = 4 := by omega
  rcases hb1 with h1 | h1 <;> rcases hc1 with h2 | h2 <;>
    rcases hd1 with h3 | h3 <;> rw [h1, h2, h3] at hsplit <;>
    simp [plateRegexMatch, hsplit]

theorem plateRegexMatch_iff (cs : List Char) :
    plateRegexMatch cs = true ↔ PlateSpec cs := by
  constructor
  · intro h
    rw [plateRegexMatch] at h
    obtain ⟨bl, hbl, h⟩ := List.any_eq_true.mp h
    obtain ⟨cl, hcl, h⟩ := List.any_eq_true.mp h
    obtain ⟨dl, hdl, h⟩ := List.any_eq_true.mp h
    have hb : bl = 1 ∨ bl = 2 := by simpa using hbl
    have hc : cl = 1 ∨ cl = 2 := by simpa using hcl
    have hd : dl = 3 ∨ dl = 4 := by simpa using hdl
    exact plateSplit_spec h (by omega) (by omega) (by omega)
  · exact plateSpec_match

/-- Counterexample for C7 as stated: the standalone validator performs no
case folding, so the lowercase plate the claim says it accepts is in fact
rejected when the validator is called on its own. -/
theorem validate_no_case_fold_cex :
    validateVehicleNumber "mh 12 ab 1234" = false := by decide

/-- C7 (amended): the standalone validator strips all whitespace and then
requires the anchored full-match pattern of 2 uppercase letters, 1–2
digits, 1–2 uppercase letters and 3–4 digits; the uppercase folding is
done by the caller before validation, so the composed check accepts
"mh 12 ab 1234", while "MH1234" is rejected even uppercase. -/
theorem plate_validator_behavior :
    (∀ s : String, validateVehicleNumber s = true ↔
      PlateSpec (s.data.filter (fun c => !isJsWhitespace c)))
    ∧ validateVehicleNumber (toUpperCaseJs "mh 12 ab 1234") = true
    ∧ validateVehicleNumber "MH1234" = false :=
  ⟨fun _ => plateRegexMatch_iff _, by decide, by decide⟩
